import Mathlib

/-!
Verification of the DDSP data-loading and run-dispatch layer.

This file gives a shallow embedding, in Lean 4, of the two source modules
`ddsp/training/data.py` and `ddsp/training/ddsp_run.py`, and proves the
behavioural properties stated in the repository specification.

Modelling conventions:
* A `tf.data.Dataset` of records is modelled as a finite `List` of records
  for one pass over the source; the stream produced after the `repeat` stage
  (which may be infinite) is modelled as a function `Nat → Option R` giving
  the record at each stream position (`none` when the stream is exhausted).
* Python exceptions are modelled with `Except PyError`.
* The pseudo-random behaviour of `dataset.shuffle` is modelled by an explicit
  choice sequence `choices : Nat → Nat` supplied to the pipeline: at each step
  the windowed shuffle emits the element of its look-ahead buffer selected by
  the next choice (mod the buffer size), then refills the buffer from the
  remaining input, exactly as the TF windowed shuffle does.
* `dataset.prefetch` only affects buffering, not the produced stream, so it is
  the identity in this model.
-/

namespace DDSP

/-- Python / TensorFlow exception kinds raised by the embedded code. -/
inductive PyError where
  | notImplementedError (msg : String)
  | keyError (key : String)
  | missingFieldError (key : String)
  | schemaMismatchError (key : String)
  | indexError
  | typeError (key : String)
  | unknownConfigurableError (key : String)
  deriving DecidableEq, Repr

/-- Take `n` consecutive records of a stream starting at position `start`;
`none` if any of them is absent.  This is the batching primitive: a batch is
emitted only when all of its records can be pulled from the stream. -/
def takeStream (s : Nat → Option R) (start : Nat) : Nat → Option (List R)
  | 0 => some []
  | n + 1 =>
    match s start, takeStream s (start + 1) n with
    | some x, some xs => some (x :: xs)
    | _, _ => none

/-- `dataset.batch(batch_size, drop_remainder=True)` on a stream: batch `n`
consists of the `batch_size` records at positions `n*batch_size, ...`; a
trailing group with fewer records is never emitted. -/
def batchAt (batch_size : Nat) (s : Nat → Option R) (n : Nat) : Option (List R) :=
  takeStream s (n * batch_size) batch_size

/-- `dataset.repeat(repeats)` applied to one pass `l`: position `i` of the
resulting stream.  A negative count repeats endlessly; count `N ≥ 0` gives
exactly `N` passes and then exhaustion. -/
def repeatData (repeats : Int) (l : List R) (i : Nat) : Option R :=
  if repeats < 0 then l[i % l.length]?
  else if i < repeats.toNat * l.length then l[i % l.length]? else none

/-- `N` concatenated passes over `l` (the reference semantics of a finite
`repeat`). -/
def nCopies : Nat → List R → List R
  | 0, _ => []
  | n + 1, l => l ++ nCopies n l

/-- One step of the windowed shuffle: while the look-ahead buffer `buf` is
nonempty, emit the element of `buf` selected by the choice sequence at step
`k`, then refill the buffer with the next element of the remaining input
`rest`. -/
def shuffleAux (choices : Nat → Nat) (k : Nat) (buf rest : List S) : List S :=
  if h : 0 < buf.length then
    buf.get ⟨choices k % buf.length, Nat.mod_lt _ h⟩ ::
      shuffleAux choices (k + 1)
        (buf.eraseIdx (choices k % buf.length) ++ rest.take 1) (rest.drop 1)
  else []
termination_by buf.length + rest.length
decreasing_by
  have h1 : (buf.eraseIdx (choices k % buf.length)).length = buf.length - 1 :=
    List.length_eraseIdx_of_lt (Nat.mod_lt _ h)
  simp only [List.length_append, h1, List.length_take, List.length_drop]
  omega

/-- `dataset.shuffle(buffer_size)`: fill a look-ahead buffer with the first
`buffer_size` records, then repeatedly emit a pseudo-randomly chosen buffered
record and refill from the rest of the input. -/
def windowShuffle (buffer_size : Nat) (choices : Nat → Nat) (l : List S) : List S :=
  shuffleAux choices 0 (l.take buffer_size) (l.drop buffer_size)

/-- The shuffle look-ahead window used by `DataProvider.get_batch`
(`buffer_size=10 * 1000` in the source). -/
def shuffle_buffer_size : Nat := 10 * 1000

/-- `data.py` class `DataProvider`: a dataset-producing capability
(`get_dataset`, which may raise) together with a per-record preprocess
function (`get_preprocess_fn`). -/
structure DataProvider (R S : Type) where
  get_dataset : Bool → Except PyError (List R)
  get_preprocess_fn : R → S

/-- The abstract base class: `get_dataset` raises `NotImplementedError` and
`get_preprocess_fn` defaults to the identity (`lambda x: x`). -/
def DataProvider.base (R : Type) : DataProvider R R where
  get_dataset := fun _ => .error (.notImplementedError "get_dataset")
  get_preprocess_fn := fun x => x

/-- The records of one pass of the `get_batch` pipeline: the dataset obtained
from `get_dataset(shuffle)`, mapped through the preprocess function, and — only
when `shuffle` is set — sent through the windowed shuffle stage with window
`shuffle_buffer_size`. -/
def DataProvider.passRecords (p : DataProvider R S) (choices : Nat → Nat)
    (shuffle : Bool) : Except PyError (List S) :=
  match p.get_dataset shuffle with
  | .error e => .error e
  | .ok ds =>
    if shuffle then
      .ok (windowShuffle shuffle_buffer_size choices (ds.map p.get_preprocess_fn))
    else
      .ok (ds.map p.get_preprocess_fn)

/-- `DataProvider.get_batch(batch_size, shuffle, repeats)`: compose dataset
retrieval, preprocessing, optional shuffling, `repeat(repeats)` and
`batch(batch_size, drop_remainder=True)`.  (`prefetch` is the identity on the
produced stream.)  The result is the stream of batches, position by
position. -/
def DataProvider.get_batch (p : DataProvider R S) (choices : Nat → Nat)
    (batch_size : Nat) (shuffle : Bool) (repeats : Int) :
    Except PyError (Nat → Option (List S)) :=
  match p.passRecords choices shuffle with
  | .error e => .error e
  | .ok l => .ok (batchAt batch_size (repeatData repeats l))

/-- `DataProvider.get_input_fn(shuffle, repeats)`: returns an `input_fn`
taking a `params` dictionary, reading `params['batch_size']` (a `KeyError`
when absent), calling `get_batch`, and mapping each batch `ex` to the pair
`(ex, ex)`. -/
def DataProvider.get_input_fn (p : DataProvider R S) (choices : Nat → Nat)
    (shuffle : Bool) (repeats : Int) (params : List (String × Nat)) :
    Except PyError (Nat → Option (List S × List S)) :=
  match params.lookup "batch_size" with
  | none => .error (.keyError "batch_size")
  | some batch_size =>
    match p.get_batch choices batch_size shuffle repeats with
    | .error e => .error e
    | .ok f => .ok (fun n => (f n).map (fun ex => (ex, ex)))

/-- A `tf.FixedLenFeature([shape], dtype=tf.float32)` declaration: `shape` is
`some n` for a fixed length `[n]` and `none` for the variable-length `[None]`
declaration of the base class. -/
structure FixedLenFeature where
  shape : Option Nat
  deriving DecidableEq, Repr

/-- A feature schema: ordered dictionary mapping feature names to
declarations. -/
abbrev FeaturesDict : Type := List (String × FixedLenFeature)

/-- A serialized `tf.Example` record, viewed as a map from feature name to the
float list stored under that name (`none` when the name is absent).  The float
values themselves are opaque (`V`). -/
abbrev SerializedExample (V : Type) : Type := String → Option (List V)

/-- `data.py` class `TFRecordProvider`: holds the resolved file pattern. -/
structure TFRecordProvider where
  file_pattern : String
  deriving DecidableEq, Repr

/-- The base `TFRecordProvider.default_file_pattern` property: raises
`NotImplementedError`. -/
def TFRecordProvider.default_file_pattern : Except PyError String :=
  .error (.notImplementedError
    "You must pass a \x22file_pattern\x22 argument to the constructor or choose a FileDataProvider with a default_file_pattern.")

/-- `TFRecordProvider.__init__(file_pattern=None)`:
`self.file_pattern = file_pattern or self.default_file_pattern` — a `None`
(and, by Python truthiness, an empty-string) argument falls back to the
subclass's `default_file_pattern` property, which for the base class
raises. -/
def TFRecordProvider.init (file_pattern : Option String)
    (subclass_default : Except PyError String) : Except PyError TFRecordProvider :=
  match file_pattern with
  | some p => if p = "" then subclass_default.map TFRecordProvider.mk else .ok ⟨p⟩
  | none => subclass_default.map TFRecordProvider.mk

/-- `tf.parse_single_example(record, features_dict)`: for each declared
feature, the record must hold the name (`missingFieldError` otherwise) and,
when the declaration fixes a length, the stored list must have exactly that
length (`schemaMismatchError` otherwise).  Returns the parsed dictionary in
declaration order. -/
def parse_single_example (record : SerializedExample V) :
    FeaturesDict → Except PyError (List (String × List V))
  | [] => .ok []
  | (key, feature) :: rest =>
    match record key with
    | none => .error (.missingFieldError key)
    | some vs =>
      match feature.shape with
      | some n =>
        if vs.length = n then
          match parse_single_example record rest with
          | .ok out => .ok ((key, vs) :: out)
          | .error e => .error e
        else .error (.schemaMismatchError key)
      | none =>
        match parse_single_example record rest with
        | .ok out => .ok ((key, vs) :: out)
        | .error e => .error e

/-- Base `TFRecordProvider.features_dict`: variable-length float arrays for
the four channels. -/
def TFRecordProvider.features_dict : FeaturesDict :=
  [("audio", ⟨none⟩), ("f0_hz", ⟨none⟩),
   ("f0_confidence", ⟨none⟩), ("loudness_db", ⟨none⟩)]

/-- `SoloInstrument.features_dict`: the four channels with fixed lengths. -/
def SoloInstrument.features_dict : FeaturesDict :=
  [("audio", ⟨some 64000⟩), ("f0_hz", ⟨some 1000⟩),
   ("f0_confidence", ⟨some 1000⟩), ("loudness_db", ⟨some 1000⟩)]

/-- `TFRecordProvider.get_preprocess_fn`'s inner `parse_tfexample(*args)`:
takes any tuple of arguments, keeps only `args[-1]` (an `IndexError` on an
empty tuple, as in Python), and parses it against the provider's
`features_dict`. -/
def parse_tfexample (features : FeaturesDict) (args : List (SerializedExample V)) :
    Except PyError (List (String × List V)) :=
  match args.getLast? with
  | none => .error .indexError
  | some record => parse_single_example record features

/-- A value in a TFDS example: either an opaque leaf tensor or a nested
dictionary. -/
inductive TfdsVal (V : Type) where
  | leaf (v : V)
  | dict (entries : List (String × TfdsVal V))

/-- A TFDS example is a dictionary of named values. -/
abbrev TfdsExample (V : Type) : Type := List (String × TfdsVal V)

/-- Python `ex[key]` on a dictionary: `KeyError` when the key is absent. -/
def dictGet (ex : TfdsExample V) (key : String) : Except PyError (TfdsVal V) :=
  match ex.lookup key with
  | some v => .ok v
  | none => .error (.keyError key)

/-- Python `ex[k1][k2]`: the outer lookup must produce a nested dictionary
(a `TypeError` on a leaf), then the inner key is looked up. -/
def dictGet2 (ex : TfdsExample V) (k1 k2 : String) : Except PyError (TfdsVal V) :=
  match dictGet ex k1 with
  | .error e => .error e
  | .ok (.leaf _) => .error (.typeError k1)
  | .ok (.dict sub) => dictGet sub k2

/-- `NSynthTfds.get_preprocess_fn`'s `preprocess_ex`: pure field selection
building the flat record, with the lookups performed in the order the dict
literal evaluates them. -/
def NSynthTfds.preprocess_ex (ex : TfdsExample V) :
    Except PyError (TfdsExample V) := do
  let pitch ← dictGet ex "pitch"
  let audio ← dictGet ex "audio"
  let instrument_source ← dictGet2 ex "instrument" "source"
  let instrument_family ← dictGet2 ex "instrument" "family"
  let instrument ← dictGet2 ex "instrument" "label"
  let f0_hz ← dictGet2 ex "f0" "hz"
  let f0_confidence ← dictGet2 ex "f0" "confidence"
  let loudness_db ← dictGet2 ex "loudness" "db"
  pure [("pitch", pitch), ("audio", audio),
        ("instrument_source", instrument_source),
        ("instrument_family", instrument_family),
        ("instrument", instrument),
        ("f0_hz", f0_hz), ("f0_confidence", f0_confidence),
        ("loudness_db", loudness_db)]

/-- A gin configuration: an ordered list of key/value bindings; a later
binding for a key overrides an earlier one. -/
abbrev Config : Type := List (String × String)

/-- The binding in force for `key`: the value of the last entry carrying that
key, if any. -/
def lastBinding : Config → String → Option String
  | [], _ => none
  | (k, v) :: rest, key =>
    match lastBinding rest key with
    | some w => some w
    | none => if k = key then some v else none

/-- The environment `ddsp_run.py` reads gin configuration from: the bindings
held by each gin file (by path), the set of registered (known) configurable
keys, and which files exist on the filesystem. -/
structure GinEnv where
  fileBindings : String → Config
  known : String → Bool
  fileExists : String → Bool

/-- One `gin.parse_config...` call appending a layer of bindings to the
accumulated configuration.  Without `skip_unknown` an unknown key raises;
with `skip_unknown=True` unknown keys are silently dropped. -/
def parseConfigLayer (known : String → Bool) (skipUnknown : Bool)
    (cfg layer : Config) : Except PyError Config :=
  if skipUnknown then .ok (cfg ++ layer.filter (fun kv => known kv.1))
  else
    match layer.find? (fun kv => !known kv.1) with
    | some kv => .error (.unknownConfigurableError kv.1)
    | none => .ok (cfg ++ layer)

/-- Several layers parsed in sequence with the same `skip_unknown` setting
(`gin.parse_config_files_and_bindings` over its file list). -/
def parseConfigLayers (known : String → Bool) (skipUnknown : Bool) :
    Config → List Config → Except PyError Config
  | cfg, [] => .ok cfg
  | cfg, layer :: rest =>
    match parseConfigLayer known skipUnknown cfg layer with
    | .error e => .error e
    | .ok cfg2 => parseConfigLayers known skipUnknown cfg2 rest

/-- `os.path.join` for the paths used here. -/
def joinPath (a b : String) : String := a ++ "/" ++ b

/-- The run modes accepted by the `--mode` flag. -/
inductive Mode where
  | train
  | eval
  | sample
  deriving DecidableEq, Repr

/-- The command-line flags of `ddsp_run.py` that the dispatcher reads.
`gin_param` bindings are modelled already split into key/value pairs. -/
structure Flags where
  mode : Mode
  model_dir : String
  master : String
  use_tpu : Bool
  gin_file : List String
  gin_param : Config
  num_train_steps : Nat
  eval_once : Bool
  initial_delay_secs : Option Nat

/-- `parse_gin(model_dir)`: layer the configuration exactly as the source
does — (1) `optimization/base_tpu.gin` or `optimization/base.gin` by
`use_tpu`, strict; (2) `<model_dir>/operative_config-0.gin` only if that file
exists, with `skip_unknown=True`; (3) the binding
`ddsp.core.cumsum.use_tpu=<use_tpu>`, strict; (4) the user `--gin_file` files
and `--gin_param` bindings, with `skip_unknown=True`. -/
def parse_gin (env : GinEnv) (flags : Flags) (model_dir : String) :
    Except PyError Config :=
  match parseConfigLayer env.known false []
      (env.fileBindings (joinPath "optimization"
        (if flags.use_tpu then "base_tpu.gin" else "base.gin"))) with
  | .error e => .error e
  | .ok cfg1 =>
    match (if env.fileExists (joinPath model_dir "operative_config-0.gin") then
        parseConfigLayer env.known true cfg1
          (env.fileBindings (joinPath model_dir "operative_config-0.gin"))
      else .ok cfg1) with
    | .error e => .error e
    | .ok cfg2 =>
      match parseConfigLayer env.known false cfg2
          [("ddsp.core.cumsum.use_tpu",
            if flags.use_tpu then "True" else "False")] with
      | .error e => .error e
      | .ok cfg3 =>
        match parseConfigLayers env.known true cfg3
            (flags.gin_file.map env.fileBindings) with
        | .error e => .error e
        | .ok cfg4 => parseConfigLayer env.known true cfg4 flags.gin_param

/-- Configuration layers in the order the specification states them, each
tagged with its `skip_unknown` setting.  Written from the spec's description
of the layering contract, to be compared with `parse_gin`. -/
def ginLayersSpec (env : GinEnv) (flags : Flags) (model_dir : String) :
    List (Config × Bool) :=
  [(env.fileBindings (joinPath "optimization"
      (if flags.use_tpu then "base_tpu.gin" else "base.gin")), false)]
  ++ (if env.fileExists (joinPath model_dir "operative_config-0.gin") then
        [(env.fileBindings (joinPath model_dir "operative_config-0.gin"), true)]
      else [])
  ++ [([("ddsp.core.cumsum.use_tpu",
        if flags.use_tpu then "True" else "False")], false)]
  ++ flags.gin_file.map (fun f => (env.fileBindings f, true))
  ++ [(flags.gin_param, true)]

/-- Folding a list of tagged layers over an accumulated configuration, later
layers overriding earlier ones. -/
def applyLayers (known : String → Bool) :
    Config → List (Config × Bool) → Except PyError Config
  | cfg, [] => .ok cfg
  | cfg, (layer, skip) :: rest =>
    match parseConfigLayer known skip cfg layer with
    | .error e => .error e
    | .ok cfg2 => applyLayers known cfg2 rest

/-- A call made by the dispatcher to an external routine.  `M` is the model
type, `D` the data-provider type. -/
inductive Call (M D : Type) where
  | train (data_provider : D) (model : M) (model_dir : String)
      (num_steps : Nat) (master : String) (use_tpu : Bool)
  | evaluate (data_provider : D) (model : M) (model_dir : String)
      (master : String) (run_once : Bool)
  | sample (data_provider : D) (model : M) (model_dir : String)
      (master : String) (run_once : Bool)
  | sleep (secs : Nat)
  deriving DecidableEq, Repr

def Call.isTrainCall : Call M D → Bool
  | .train .. => true
  | _ => false

def Call.isEvalCall : Call M D → Bool
  | .evaluate .. => true
  | _ => false

def Call.isSampleCall : Call M D → Bool
  | .sample .. => true
  | _ => false

/-- The collaborators the dispatcher resolves values through: `~`-expansion
of the model directory, `models.get_model()` and the gin resolution of the
`data_provider=gin.REQUIRED` argument, both functions of the parsed
configuration. -/
structure RunEnv (M D : Type) where
  expanduser : String → String
  get_model : Config → M
  get_data_provider : Config → D

/-- `delay_start()`: sleep for `initial_delay_secs` when that flag is set
and nonzero (Python truthiness). -/
def delay_start (flags : Flags) : List (Call M D) :=
  match flags.initial_delay_secs with
  | none => []
  | some t => if t = 0 then [] else [Call.sleep t]

/-- `run()`: expand the model directory, parse gin, resolve the model, then
dispatch on the mode, producing the trace of external calls. -/
def run (env : RunEnv M D) (ginEnv : GinEnv) (flags : Flags) :
    Except PyError (List (Call M D)) :=
  match parse_gin ginEnv flags (env.expanduser flags.model_dir) with
  | .error e => .error e
  | .ok cfg =>
    match flags.mode with
    | .train =>
      .ok [Call.train (env.get_data_provider cfg) (env.get_model cfg)
        (env.expanduser flags.model_dir) flags.num_train_steps
        flags.master flags.use_tpu]
    | .eval =>
      .ok (delay_start flags ++
        [Call.evaluate (env.get_data_provider cfg) (env.get_model cfg)
          (env.expanduser flags.model_dir) flags.master flags.eval_once])
    | .sample =>
      .ok (delay_start flags ++
        [Call.sample (env.get_data_provider cfg) (env.get_model cfg)
          (env.expanduser flags.model_dir) flags.master flags.eval_once])

/-! ### Helper lemmas about the pipeline primitives -/

theorem takeStream_length {R : Type} (s : Nat → Option R) :
    ∀ (n start : Nat) (l : List R), takeStream s start n = some l → l.length = n := by
  intro n
  induction n with
  | zero =>
    intro start l h
    simp only [takeStream, Option.some.injEq] at h
    simp [← h]
  | succ n ih =>
    intro start l h
    simp only [takeStream] at h
    cases hs : s start with
    | none => rw [hs] at h; exact absurd h (by simp)
    | some x =>
      rw [hs] at h
      cases ht : takeStream s (start + 1) n with
      | none => rw [ht] at h; exact absurd h (by simp)
      | some xs =>
        rw [ht] at h
        simp only [Option.some.injEq] at h
        subst h
        simp [ih (start + 1) xs ht]

theorem takeStream_isSome {R : Type} (s : Nat → Option R)
    (h : ∀ i, (s i).isSome) :
    ∀ (n start : Nat), (takeStream s start n).isSome := by
  intro n
  induction n with
  | zero => intro start; simp [takeStream]
  | succ n ih =>
    intro start
    simp only [takeStream]
    cases hs : s start with
    | none => have := h start; rw [hs] at this; exact absurd this (by simp)
    | some x =>
      cases ht : takeStream s (start + 1) n with
      | none => have := ih (start + 1); rw [ht] at this; exact absurd this (by simp)
      | some xs => simp

theorem repeatData_natCast {R : Type} (N : Nat) (l : List R) (i : Nat) :
    repeatData (N : Int) l i = (nCopies N l)[i]? := by
  induction N generalizing i with
  | zero =>
    simp [repeatData, nCopies]
  | succ n ih =>
    simp only [repeatData] at ih ⊢
    have hneg : ¬((n : Int) < 0) := Int.not_lt.mpr (Int.natCast_nonneg n)
    have hneg1 : ¬(((n + 1 : Nat) : Int) < 0) :=
      Int.not_lt.mpr (Int.natCast_nonneg (n + 1))
    have htn : ((n + 1 : Nat) : Int).toNat = n + 1 := Int.toNat_natCast (n + 1)
    have htn0 : ((n : Nat) : Int).toNat = n := Int.toNat_natCast n
    rw [if_neg hneg1, htn]
    simp only [if_neg hneg, htn0] at ih
    simp only [nCopies]
    by_cases hi : i < l.length
    · rw [List.getElem?_append_left hi, if_pos, Nat.mod_eq_of_lt hi]
      exact lt_of_lt_of_le hi (Nat.le_mul_of_pos_left l.length (Nat.succ_pos n))
    · push_neg at hi
      rw [List.getElem?_append_right hi, ← ih]
      rcases Nat.eq_zero_or_pos l.length with hl | hl
      · simp [hl]
      · have hmod : i % l.length = (i - l.length) % l.length :=
          Nat.mod_eq_sub_mod hi
        rw [hmod]
        have hcond : i < (n + 1) * l.length ↔ i - l.length < n * l.length := by
          rw [Nat.succ_mul]
          omega
        by_cases hc : i < (n + 1) * l.length
        · rw [if_pos hc, if_pos (hcond.mp hc)]
        · rw [if_neg hc, if_neg (fun hx => hc (hcond.mpr hx))]

theorem repeatData_neg_isSome {R : Type} (l : List R) (hl : l ≠ []) (i : Nat) :
    (repeatData (-1) l i).isSome := by
  have hlen : 0 < l.length := List.length_pos.mpr hl
  simp only [repeatData, if_pos (by omega : (-1 : Int) < 0)]
  have : i % l.length < l.length := Nat.mod_lt i hlen
  simp [List.getElem?_eq_getElem this]

theorem get_cons_eraseIdx_perm {α : Type} :
    ∀ (l : List α) (i : Nat) (h : i < l.length),
      (l.get ⟨i, h⟩ :: l.eraseIdx i).Perm l := by
  intro l
  induction l with
  | nil => intro i h; exact absurd h (by simp)
  | cons a t ih =>
    intro i h
    cases i with
    | zero => simp [List.eraseIdx]
    | succ j =>
      have hj : j < t.length := by simpa using h
      simp only [List.get, List.eraseIdx]
      exact (List.Perm.swap a (t.get ⟨j, hj⟩) (t.eraseIdx j)).trans
        ((ih j hj).cons a)

theorem shuffleAux_perm {S : Type} (c : Nat → Nat) :
    ∀ (n k : Nat) (buf rest : List S), buf.length + rest.length = n →
      (rest = [] ∨ buf ≠ []) →
      (shuffleAux c k buf rest).Perm (buf ++ rest) := by
  intro n
  induction n using Nat.strong_induction_on with
  | _ n ih =>
    intro k buf rest hn hcond
    cases hbuf : buf with
    | nil =>
      subst hbuf
      have hrest : rest = [] := by
        rcases hcond with h | h
        · exact h
        · exact absurd rfl h
      subst hrest
      rw [shuffleAux]
      simp
    | cons b bs =>
      subst hbuf
      rw [shuffleAux]
      have hpos : 0 < (b :: bs).length := by simp
      rw [dif_pos hpos]
      set buf := b :: bs with hbufdef
      set i := c k % buf.length with hidef
      have hi : i < buf.length := Nat.mod_lt _ hpos
      have hlen : (buf.eraseIdx i ++ rest.take 1).length + (rest.drop 1).length
          < n := by
        have h1 : (buf.eraseIdx i).length = buf.length - 1 :=
          List.length_eraseIdx_of_lt hi
        simp only [List.length_append, h1, List.length_take, List.length_drop]
        omega
    /- apply the induction hypothesis to the refilled buffer -/
      have hcond2 : rest.drop 1 = [] ∨ buf.eraseIdx i ++ rest.take 1 ≠ [] := by
        cases hrest : rest with
        | nil => left; simp
        | cons r rs =>
          right
          simp
      have hperm := ih _ hlen (k + 1) (buf.eraseIdx i ++ rest.take 1)
        (rest.drop 1) rfl hcond2
      have hassoc : (buf.eraseIdx i ++ rest.take 1) ++ rest.drop 1 =
          buf.eraseIdx i ++ rest := by
        rw [List.append_assoc, List.take_append_drop]
      rw [hassoc] at hperm
      have hstep : (buf.get ⟨i, hi⟩ :: (buf.eraseIdx i ++ rest)).Perm
          (buf ++ rest) := by
        have := (get_cons_eraseIdx_perm buf i hi).append_right rest
        simpa using this
      exact (hperm.cons (buf.get ⟨i, hi⟩)).trans hstep

theorem windowShuffle_perm {S : Type} (w : Nat) (hw : 0 < w)
    (c : Nat → Nat) (l : List S) : (windowShuffle w c l).Perm l := by
  have hcond : l.drop w = [] ∨ l.take w ≠ [] := by
    cases hl : l with
    | nil => left; simp
    | cons a t =>
      right
      have : 0 < (List.take w (a :: t)).length := by
        rw [List.length_take]
        simp [hw]
      intro hx
      rw [hx] at this
      exact absurd this (by simp)
  have hperm := shuffleAux_perm c ((l.take w).length + (l.drop w).length) 0
    (l.take w) (l.drop w) rfl hcond
  rw [List.take_append_drop] at hperm
  unfold windowShuffle
  exact hperm

/-! ### Claim theorems for the data pipeline -/

/-- C1: For every DataProvider and every batch_size B, every batch yielded by
`get_batch(B, shuffle, repeats)` contains exactly B records; a trailing group
of fewer than B records is never emitted (partial final batches are
dropped). -/
theorem c1_get_batch_batches_have_exact_size {R S : Type}
    (p : DataProvider R S) (choices : Nat → Nat) (batch_size : Nat)
    (shuffle : Bool) (repeats : Int) (f : Nat → Option (List S))
    (n : Nat) (b : List S)
    (hf : p.get_batch choices batch_size shuffle repeats = .ok f)
    (hb : f n = some b) : b.length = batch_size := by
  unfold DataProvider.get_batch at hf
  cases hp : p.passRecords choices shuffle with
  | error e => rw [hp] at hf; exact absurd hf (by simp)
  | ok l =>
    rw [hp] at hf
    simp only [Except.ok.injEq] at hf
    subst hf
    unfold batchAt at hb
    exact takeStream_length _ _ _ _ hb

theorem c1_witness : ([1, 2] : List Nat).length = 2 :=
  c1_get_batch_batches_have_exact_size
    ⟨fun _ => .ok [1, 2, 3, 4, 5], fun x => x⟩ (fun _ => 0) 2 false 1
    (batchAt 2 (repeatData 1 [1, 2, 3, 4, 5])) 0 [1, 2] rfl rfl

/-- C2: For every DataProvider, `get_batch` with `repeats=-1` yields an
unbounded (endlessly cycling) sequence of batches, and with `repeats=N`
(`N ≥ 0`) the underlying record stream is exactly `N` passes over the record
set before the sequence is exhausted. -/
theorem c2_get_batch_repeats {R S : Type}
    (p : DataProvider R S) (choices : Nat → Nat) (batch_size : Nat)
    (shuffle : Bool) (repeats : Int) (f : Nat → Option (List S)) (l : List S)
    (hf : p.get_batch choices batch_size shuffle repeats = .ok f)
    (hl : p.passRecords choices shuffle = .ok l) :
    (repeats = -1 → l ≠ [] → ∀ n, (f n).isSome) ∧
    (∀ N : Nat, repeats = (N : Int) →
      ∀ i, repeatData repeats l i = (nCopies N l)[i]?) := by
  unfold DataProvider.get_batch at hf
  rw [hl] at hf
  simp only [Except.ok.injEq] at hf
  subst hf
  constructor
  · intro hrep hne n
    subst hrep
    unfold batchAt
    exact takeStream_isSome _ (fun i => repeatData_neg_isSome l hne i) _ _
  · intro N hrep i
    subst hrep
    exact repeatData_natCast N l i

theorem c2_witness :
    (batchAt 2 (repeatData (-1) [(1 : Nat), 2]) 7).isSome = true ∧
    repeatData ((3 : Nat) : Int) [(1 : Nat), 2] 5 =
      (nCopies 3 [(1 : Nat), 2])[5]? :=
  ⟨(c2_get_batch_repeats ⟨fun _ => .ok [1, 2], fun x => x⟩ (fun _ => 0) 2 false
      (-1) (batchAt 2 (repeatData (-1) [1, 2])) [1, 2] rfl rfl).1
      rfl (by decide) 7,
   (c2_get_batch_repeats ⟨fun _ => .ok [1, 2], fun x => x⟩ (fun _ => 0) 2 false
      ((3 : Nat) : Int) (batchAt 2 (repeatData ((3 : Nat) : Int) [1, 2])) [1, 2]
      rfl rfl).2 3 rfl 5⟩

/-- C3: For every DataProvider, the function returned by `get_input_fn`, when
applied to a params dictionary containing key 'batch_size', yields a sequence
whose every element is a pair of the same batch: `pair[0] == pair[1]`. -/
theorem c3_input_fn_pairs {R S : Type}
    (p : DataProvider R S) (choices : Nat → Nat) (shuffle : Bool)
    (repeats : Int) (params : List (String × Nat))
    (g : Nat → Option (List S × List S)) (n : Nat) (pr : List S × List S)
    (hg : p.get_input_fn choices shuffle repeats params = .ok g)
    (hn : g n = some pr) : pr.1 = pr.2 := by
  unfold DataProvider.get_input_fn at hg
  cases hpl : params.lookup "batch_size" with
  | none => rw [hpl] at hg; exact absurd hg (by simp)
  | some B =>
    rw [hpl] at hg
    dsimp only at hg
    cases hb : p.get_batch choices B shuffle repeats with
    | error e => rw [hb] at hg; exact absurd hg (by simp)
    | ok f =>
      rw [hb] at hg
      simp only [Except.ok.injEq] at hg
      subst hg
      dsimp only at hn
      cases hf : f n with
      | none => rw [hf] at hn; exact absurd hn (by simp)
      | some b =>
        rw [hf] at hn
        have hpr : pr = (b, b) := by simpa using hn.symm
        rw [hpr]

theorem c3_witness :
    (([(1 : Nat), 2], [(1 : Nat), 2]) : List Nat × List Nat).1 =
      (([(1 : Nat), 2], [(1 : Nat), 2]) : List Nat × List Nat).2 :=
  c3_input_fn_pairs ⟨fun _ => .ok [1, 2], fun x => x⟩ (fun _ => 0) false 1
    [("batch_size", 2)]
    (fun n => (batchAt 2 (repeatData 1 [1, 2]) n).map (fun ex => (ex, ex)))
    0 ([1, 2], [1, 2]) rfl rfl

/-- C4: `get_batch` with `shuffle=False` applies no shuffling stage and its
result does not depend on the run's pseudo-random choices (stable order over
the same source), while `shuffle=True` inserts the windowed shuffle stage
with a look-ahead window of exactly 10,000 records, yielding a permutation
that preserves the multiset of records of each pass. -/
theorem c4_shuffle_stage {R S : Type} (p : DataProvider R S) :
    (∀ (c1 c2 : Nat → Nat) (B : Nat) (repeats : Int),
      p.get_batch c1 B false repeats = p.get_batch c2 B false repeats) ∧
    (∀ (c : Nat → Nat) (ds : List R), p.get_dataset false = .ok ds →
      p.passRecords c false = .ok (ds.map p.get_preprocess_fn)) ∧
    (∀ (c : Nat → Nat) (ds : List R), p.get_dataset true = .ok ds →
      p.passRecords c true =
        .ok (windowShuffle shuffle_buffer_size c (ds.map p.get_preprocess_fn))) ∧
    shuffle_buffer_size = 10000 ∧
    (∀ (c : Nat → Nat) (ds : List R) (l : List S),
      p.get_dataset true = .ok ds → p.passRecords c true = .ok l →
      l.Perm (ds.map p.get_preprocess_fn)) := by
  refine ⟨?_, ?_, ?_, rfl, ?_⟩
  · intro c1 c2 B repeats
    cases h : p.get_dataset false <;>
      simp [DataProvider.get_batch, DataProvider.passRecords, h]
  · intro c ds h
    simp [DataProvider.passRecords, h]
  · intro c ds h
    simp [DataProvider.passRecords, h]
  · intro c ds l h hl
    simp only [DataProvider.passRecords, h, if_pos] at hl
    simp only [Except.ok.injEq] at hl
    subst hl
    exact windowShuffle_perm _ (by norm_num [shuffle_buffer_size]) c _

theorem c4_witness :
    (windowShuffle shuffle_buffer_size (fun _ => 0) [(1 : Nat), 2, 3]).Perm
      [1, 2, 3] :=
  (c4_shuffle_stage ⟨fun _ => .ok [1, 2, 3], fun x => x⟩).2.2.2.2 (fun _ => 0)
    [1, 2, 3] (windowShuffle shuffle_buffer_size (fun _ => 0) [1, 2, 3]) rfl rfl

/-! ### Claim theorems for the record-parsing layer -/

/-- C7: Calling `DataProvider.get_dataset` on the abstract base contract
raises a not-implemented error for every shuffle argument, and constructing a
`TFRecordProvider` without a `file_pattern` argument when the subclass
declares no `default_file_pattern` raises a not-implemented error. -/
theorem c7_not_implemented :
    (∀ (R : Type) (shuffle : Bool), ∃ msg,
      (DataProvider.base R).get_dataset shuffle =
        .error (.notImplementedError msg)) ∧
    (∃ msg, TFRecordProvider.init none TFRecordProvider.default_file_pattern =
      .error (.notImplementedError msg)) := by
  exact ⟨fun R shuffle => ⟨_, rfl⟩, ⟨_, rfl⟩⟩

/-- C8: `SoloInstrument.features_dict` declares fixed-length float features
audio=64000, f0_hz=1000, f0_confidence=1000, loudness_db=1000, and parsing a
serialized record through `SoloInstrument`'s preprocess function fails with a
schema-mismatch error whenever the record's audio field length is not
64000. -/
theorem c8_solo_schema {V : Type} (args : List (SerializedExample V))
    (record : SerializedExample V) (vs : List V)
    (hlast : args.getLast? = some record)
    (haudio : record "audio" = some vs) (hlen : vs.length ≠ 64000) :
    SoloInstrument.features_dict.lookup "audio" = some ⟨some 64000⟩ ∧
    SoloInstrument.features_dict.lookup "f0_hz" = some ⟨some 1000⟩ ∧
    SoloInstrument.features_dict.lookup "f0_confidence" = some ⟨some 1000⟩ ∧
    SoloInstrument.features_dict.lookup "loudness_db" = some ⟨some 1000⟩ ∧
    parse_tfexample SoloInstrument.features_dict args =
      .error (.schemaMismatchError "audio") := by
  refine ⟨rfl, rfl, rfl, rfl, ?_⟩
  unfold parse_tfexample
  rw [hlast]
  unfold SoloInstrument.features_dict parse_single_example
  rw [haudio]
  simp [hlen]

theorem c8_witness :
    parse_tfexample SoloInstrument.features_dict
      [fun k => if k = "audio" then some [(0 : Nat)] else none] =
      .error (.schemaMismatchError "audio") :=
  (c8_solo_schema [fun k => if k = "audio" then some [(0 : Nat)] else none]
    (fun k => if k = "audio" then some [(0 : Nat)] else none) [0]
    rfl (by simp) (by decide)).2.2.2.2

/-- A complete NSynth TFDS example used to exercise the preprocessing
function. -/
def exNSynthFull : TfdsExample Nat :=
  [("pitch", .leaf 1), ("audio", .leaf 2),
   ("instrument", .dict [("source", .leaf 3), ("family", .leaf 4),
     ("label", .leaf 5)]),
   ("f0", .dict [("hz", .leaf 6), ("confidence", .leaf 7)]),
   ("loudness", .dict [("db", .leaf 8)])]

/-- The same example with the nested `instrument.family` field removed. -/
def exNSynthNoFamily : TfdsExample Nat :=
  [("pitch", .leaf 1), ("audio", .leaf 2),
   ("instrument", .dict [("source", .leaf 3), ("label", .leaf 5)]),
   ("f0", .dict [("hz", .leaf 6), ("confidence", .leaf 7)]),
   ("loudness", .dict [("db", .leaf 8)])]

/-- C9: `NSynthTfds`'s preprocessing function is a pure field selection: on a
record containing pitch, audio, and the nested instrument/f0/loudness
sub-fields it returns the flat record with those eight values, and on a
record where the `instrument.family` lookup fails it fails with that
missing-key error rather than silently omitting the key. -/
theorem c9_nsynth_preprocess {V : Type} :
    (∀ (ex : TfdsExample V) (p a isrc ifam ilab hz conf db : TfdsVal V),
      dictGet ex "pitch" = .ok p →
      dictGet ex "audio" = .ok a →
      dictGet2 ex "instrument" "source" = .ok isrc →
      dictGet2 ex "instrument" "family" = .ok ifam →
      dictGet2 ex "instrument" "label" = .ok ilab →
      dictGet2 ex "f0" "hz" = .ok hz →
      dictGet2 ex "f0" "confidence" = .ok conf →
      dictGet2 ex "loudness" "db" = .ok db →
      NSynthTfds.preprocess_ex ex = .ok
        [("pitch", p), ("audio", a), ("instrument_source", isrc),
         ("instrument_family", ifam), ("instrument", ilab), ("f0_hz", hz),
         ("f0_confidence", conf), ("loudness_db", db)]) ∧
    (∀ (ex : TfdsExample V) (p a isrc : TfdsVal V) (e : PyError),
      dictGet ex "pitch" = .ok p →
      dictGet ex "audio" = .ok a →
      dictGet2 ex "instrument" "source" = .ok isrc →
      dictGet2 ex "instrument" "family" = .error e →
      NSynthTfds.preprocess_ex ex = .error e) := by
  constructor
  · intro ex p a isrc ifam ilab hz conf db h1 h2 h3 h4 h5 h6 h7 h8
    simp [NSynthTfds.preprocess_ex, h1, h2, h3, h4, h5, h6, h7, h8,
      Bind.bind, Except.bind, Pure.pure, Except.pure]
  · intro ex p a isrc e h1 h2 h3 h4
    simp [NSynthTfds.preprocess_ex, h1, h2, h3, h4, Bind.bind, Except.bind]

theorem c9_witness :
    NSynthTfds.preprocess_ex exNSynthFull = .ok
      [("pitch", .leaf 1), ("audio", .leaf 2), ("instrument_source", .leaf 3),
       ("instrument_family", .leaf 4), ("instrument", .leaf 5),
       ("f0_hz", .leaf 6), ("f0_confidence", .leaf 7),
       ("loudness_db", .leaf 8)] ∧
    NSynthTfds.preprocess_ex exNSynthNoFamily =
      .error (.keyError "family") :=
  ⟨c9_nsynth_preprocess.1 exNSynthFull (.leaf 1) (.leaf 2) (.leaf 3) (.leaf 4)
    (.leaf 5) (.leaf 6) (.leaf 7) (.leaf 8) rfl rfl rfl rfl rfl rfl rfl rfl,
   c9_nsynth_preprocess.2 exNSynthNoFamily (.leaf 1) (.leaf 2) (.leaf 3)
    (.keyError "family") rfl rfl rfl rfl⟩

/-- C10: the parse function returned by `TFRecordProvider.get_preprocess_fn`
accepts any number of arguments and its result depends only on the last
argument: for any two argument lists sharing the same final serialized
record, the parsed outputs are equal. -/
theorem c10_parse_last_arg {V : Type} (features : FeaturesDict)
    (args1 args2 : List (SerializedExample V))
    (h : args1.getLast? = args2.getLast?) :
    parse_tfexample features args1 = parse_tfexample features args2 := by
  unfold parse_tfexample
  rw [h]

theorem c10_witness :
    parse_tfexample TFRecordProvider.features_dict
      [(fun _ => none : SerializedExample Nat), fun _ => some [0]] =
    parse_tfexample TFRecordProvider.features_dict
      [(fun _ => some [(0 : Nat)] : SerializedExample Nat)] :=
  c10_parse_last_arg TFRecordProvider.features_dict
    [(fun _ => none), fun _ => some [0]] [fun _ => some [0]] rfl

/-! ### Helper lemmas about configuration layering -/

theorem lastBinding_append (a b : Config) (key : String) :
    lastBinding (a ++ b) key =
      match lastBinding b key with
      | some w => some w
      | none => lastBinding a key := by
  induction a with
  | nil =>
    cases h : lastBinding b key <;> simp [lastBinding, h]
  | cons kv t ih =>
    obtain ⟨k, v⟩ := kv
    simp only [List.cons_append, lastBinding, List.append_eq, ih]
    cases h : lastBinding b key <;> cases h2 : lastBinding t key <;> simp

theorem lastBinding_filter (known : String → Bool) (layer : Config)
    (key : String) (hk : known key = true) :
    lastBinding (layer.filter (fun kv => known kv.1)) key =
      lastBinding layer key := by
  induction layer with
  | nil => rfl
  | cons kv t ih =>
    obtain ⟨k, v⟩ := kv
    by_cases h : known k
    · have hfil : List.filter (fun kv => known kv.1) ((k, v) :: t) =
          (k, v) :: List.filter (fun kv => known kv.1) t := by
        simp [List.filter_cons, h]
      rw [hfil]
      simp only [lastBinding, ih]
    · have hne : k ≠ key := fun he => by rw [he] at h; exact h hk
      have hfil : List.filter (fun kv => known kv.1) ((k, v) :: t) =
          List.filter (fun kv => known kv.1) t := by
        simp [List.filter_cons, h]
      rw [hfil, ih]
      cases h2 : lastBinding t key with
      | some w => simp [lastBinding, h2]
      | none => simp [lastBinding, h2, hne]

theorem applyLayers_append (known : String → Bool) (cfg : Config)
    (xs ys : List (Config × Bool)) :
    applyLayers known cfg (xs ++ ys) =
      match applyLayers known cfg xs with
      | .error e => .error e
      | .ok c => applyLayers known c ys := by
  induction xs generalizing cfg with
  | nil => simp [applyLayers]
  | cons x t ih =>
    obtain ⟨layer, skip⟩ := x
    simp only [List.cons_append, applyLayers]
    cases h : parseConfigLayer known skip cfg layer with
    | error e => rfl
    | ok c => exact ih c

theorem parseConfigLayers_eq_applyLayers (known : String → Bool) (skip : Bool)
    (cfg : Config) (ls : List Config) :
    parseConfigLayers known skip cfg ls =
      applyLayers known cfg (ls.map (fun l => (l, skip))) := by
  induction ls generalizing cfg with
  | nil => rfl
  | cons l t ih =>
    simp only [List.map_cons, parseConfigLayers, applyLayers]
    cases h : parseConfigLayer known skip cfg l with
    | error e => rfl
    | ok c => exact ih c

theorem applyLayers_map_true (known : String → Bool) (cfg : Config)
    (bindings : String → Config) (files : List String) :
    applyLayers known cfg (files.map (fun f => (bindings f, true))) =
      parseConfigLayers known true cfg (files.map bindings) := by
  rw [parseConfigLayers_eq_applyLayers, List.map_map]
  rfl

/-! ### Claim theorems for the run entry point -/

/-- C5: `parse_gin` applies configuration layers in exactly this order, later
layers overriding earlier ones: (1) the built-in optimizer default file,
`base_tpu.gin` when `use_tpu` is set and `base.gin` otherwise; (2) the
persisted snapshot `<model_dir>/operative_config-0.gin`, only if that file
exists, with unknown keys tolerated; (3) the fixed
`ddsp.core.cumsum.use_tpu` override keyed to the `use_tpu` flag; (4) the
user-supplied `--gin_file` files and `--gin_param` bindings. -/
theorem c5_parse_gin_layering (env : GinEnv) (flags : Flags)
    (model_dir : String) :
    parse_gin env flags model_dir =
      applyLayers env.known [] (ginLayersSpec env flags model_dir) ∧
    (∀ (cfg : Config) (k v : String),
      parse_gin env flags model_dir = .ok cfg →
      lastBinding flags.gin_param k = some v → env.known k = true →
      lastBinding cfg k = some v) := by
  constructor
  · unfold parse_gin ginLayersSpec
    cases hex : env.fileExists (joinPath model_dir "operative_config-0.gin") <;>
      simp only [Bool.false_eq_true, if_false, if_true, ite_true, ite_false,
        List.singleton_append, List.nil_append, List.cons_append] <;>
    cases h1 : (parseConfigLayer env.known false [] (env.fileBindings
        (joinPath "optimization"
          (if flags.use_tpu then "base_tpu.gin" else "base.gin")))) <;>
      simp only [applyLayers, h1]
    case false.ok cfg1 =>
      cases h3 : (parseConfigLayer env.known false cfg1
          [("ddsp.core.cumsum.use_tpu",
            if flags.use_tpu then "True" else "False")]) <;>
        simp only [applyLayers, h3]
      case ok cfg3 =>
        rw [applyLayers_append, applyLayers_map_true]
        cases h4 : (parseConfigLayers env.known true cfg3
            (flags.gin_file.map env.fileBindings)) <;>
          simp only [applyLayers, h4]
        case ok cfg4 =>
          cases h5 : (parseConfigLayer env.known true cfg4 flags.gin_param) <;>
            simp only [applyLayers, h5]
    case true.ok cfg1 =>
      cases h2 : (parseConfigLayer env.known true cfg1
          (env.fileBindings (joinPath model_dir "operative_config-0.gin"))) <;>
        simp only [applyLayers, h2]
      case ok cfg2 =>
        cases h3 : (parseConfigLayer env.known false cfg2
            [("ddsp.core.cumsum.use_tpu",
              if flags.use_tpu then "True" else "False")]) <;>
          simp only [applyLayers, h3]
        case ok cfg3 =>
          rw [applyLayers_append, applyLayers_map_true]
          cases h4 : (parseConfigLayers env.known true cfg3
              (flags.gin_file.map env.fileBindings)) <;>
            simp only [applyLayers, h4]
          case ok cfg4 =>
            cases h5 : (parseConfigLayer env.known true cfg4 flags.gin_param) <;>
              simp only [applyLayers, h5]
  · intro cfg k v h hk hknown
    unfold parse_gin at h
    cases h1 : parseConfigLayer env.known false []
        (env.fileBindings (joinPath "optimization"
          (if flags.use_tpu then "base_tpu.gin" else "base.gin"))) with
    | error e => rw [h1] at h; exact absurd h (by simp)
    | ok cfg1 =>
      rw [h1] at h
      dsimp only at h
      cases h2 : (if env.fileExists (joinPath model_dir "operative_config-0.gin")
          then parseConfigLayer env.known true cfg1
            (env.fileBindings (joinPath model_dir "operative_config-0.gin"))
          else .ok cfg1) with
      | error e => rw [h2] at h; exact absurd h (by simp)
      | ok cfg2 =>
        rw [h2] at h
        dsimp only at h
        cases h3 : parseConfigLayer env.known false cfg2
            [("ddsp.core.cumsum.use_tpu",
              if flags.use_tpu then "True" else "False")] with
        | error e => rw [h3] at h; exact absurd h (by simp)
        | ok cfg3 =>
          rw [h3] at h
          dsimp only at h
          cases h4 : parseConfigLayers env.known true cfg3
              (flags.gin_file.map env.fileBindings) with
          | error e => rw [h4] at h; exact absurd h (by simp)
          | ok cfg4 =>
            rw [h4] at h
            dsimp only at h
            unfold parseConfigLayer at h
            rw [if_pos rfl] at h
            simp only [Except.ok.injEq] at h
            rw [← h, lastBinding_append, lastBinding_filter _ _ _ hknown, hk]

theorem c5_witness :
    parse_gin ⟨fun _ => [], fun _ => true, fun _ => false⟩
      ⟨.train, "md", "", false, [], [("k", "v")], 5, false, none⟩ "md" =
      applyLayers (fun _ => true) []
        (ginLayersSpec ⟨fun _ => [], fun _ => true, fun _ => false⟩
          ⟨.train, "md", "", false, [], [("k", "v")], 5, false, none⟩ "md") ∧
    lastBinding [("ddsp.core.cumsum.use_tpu", "False"), ("k", "v")] "k" =
      some "v" :=
  ⟨(c5_parse_gin_layering ⟨fun _ => [], fun _ => true, fun _ => false⟩
      ⟨.train, "md", "", false, [], [("k", "v")], 5, false, none⟩ "md").1,
   (c5_parse_gin_layering ⟨fun _ => [], fun _ => true, fun _ => false⟩
      ⟨.train, "md", "", false, [], [("k", "v")], 5, false, none⟩ "md").2
      [("ddsp.core.cumsum.use_tpu", "False"), ("k", "v")] "k" "v" rfl rfl rfl⟩

/-- C6: with `mode=train`, a resolvable model and a data provider bound via
configuration, the dispatcher invokes the external train routine exactly
once, passing the constructed data provider, the resolved model, the
user-expanded model directory, the configured `num_train_steps` budget, and
the `master` and `use_tpu` flags unchanged; the eval and sample routines are
not invoked. -/
theorem c6_train_dispatch {M D : Type} (env : RunEnv M D) (ginEnv : GinEnv)
    (flags : Flags) (cfg : Config)
    (hmode : flags.mode = .train)
    (hgin : parse_gin ginEnv flags (env.expanduser flags.model_dir) = .ok cfg) :
    run env ginEnv flags = .ok [Call.train (env.get_data_provider cfg)
      (env.get_model cfg) (env.expanduser flags.model_dir)
      flags.num_train_steps flags.master flags.use_tpu] ∧
    (∀ calls : List (Call M D), run env ginEnv flags = .ok calls →
      calls.countP (fun c => c.isTrainCall) = 1 ∧
      calls.countP (fun c => c.isEvalCall) = 0 ∧
      calls.countP (fun c => c.isSampleCall) = 0) := by
  have hrun : run env ginEnv flags = .ok [Call.train
      (env.get_data_provider cfg) (env.get_model cfg)
      (env.expanduser flags.model_dir) flags.num_train_steps flags.master
      flags.use_tpu] := by
    unfold run
    rw [hgin, hmode]
  refine ⟨hrun, ?_⟩
  intro calls hc
  rw [hrun] at hc
  simp only [Except.ok.injEq] at hc
  subst hc
  simp [List.countP_cons, List.countP_nil, Call.isTrainCall, Call.isEvalCall,
    Call.isSampleCall]

theorem c6_witness :
    run (RunEnv.mk (fun s => s) (fun _ => (0 : Nat)) (fun _ => (0 : Nat)))
      ⟨fun _ => [], fun _ => true, fun _ => false⟩
      ⟨.train, "md", "", false, [], [], 5, false, none⟩ =
      .ok [Call.train 0 0 "md" 5 "" false] :=
  (c6_train_dispatch (RunEnv.mk (fun s => s) (fun _ => (0 : Nat))
      (fun _ => (0 : Nat)))
    ⟨fun _ => [], fun _ => true, fun _ => false⟩
    ⟨.train, "md", "", false, [], [], 5, false, none⟩
    [("ddsp.core.cumsum.use_tpu", "False")] rfl rfl).1

end DDSP
